import Mathlib

/-!
Verification of the shift-based power-of-two batch-normalization layer
(`BatchNormSfhitPow2Layer` and `batch_norm_pow_2` in
`Train-time/shift_batch_norm.py`).

A tensor with reduction axes `A` is modelled as a function `ι → κ → ℝ`,
where `κ` indexes the positions along the reduced axes (the axes in `A`)
and `ι` indexes the kept axes.  The per-layer state tensors (`centered`,
`mean`, `std`), which have size 1 on all reduced axes, are functions
`ι → ℝ`.  Machine floats are modelled as real numbers.
-/

open scoped BigOperators

noncomputable section

/-- The persistent state of a layer instance: the three non-trainable
parameter tensors registered in `__init__` (`centered`, `mean`, `std`). -/
structure BNState (ι : Type) where
  centered : ι → ℝ
  mean : ι → ℝ
  std : ι → ℝ

/-- `input.mean(self.axes, keepdims=True)`: the arithmetic mean over the
reduced axes. -/
def tmean {ι κ : Type} [Fintype κ] (X : ι → κ → ℝ) (i : ι) : ℝ :=
  (∑ k, X i k) / (Fintype.card κ : ℝ)

/-- `centered = input - mean` (mean broadcast over the reduced axes). -/
def centered {ι κ : Type} [Fintype κ] (X : ι → κ → ℝ) (i : ι) (k : κ) : ℝ :=
  X i k - tmean X i

/-- The element-wise `T.switch(T.eq(centered, 0.), 0., T.log2(T.abs_(centered)))`:
log2 of the absolute value, defined to be 0 where the argument is 0. -/
def centered_log2 (c : ℝ) : ℝ :=
  if c = 0 then 0 else Real.logb 2 |c|

/-- `centered_ap2 = T.pow(2., T.round(centered_log2))`: the power-of-two
rounded-magnitude surrogate. -/
def centered_ap2 (c : ℝ) : ℝ :=
  (2 : ℝ) ^ (round (centered_log2 c))

/-- `T.mean(T.abs_(centered) * centered_ap2, self.axes, keepdims=True)`:
the variance surrogate. -/
def variance_surrogate {ι κ : Type} [Fintype κ] (X : ι → κ → ℝ) (i : ι) : ℝ :=
  (∑ k, |centered X i k| * centered_ap2 (centered X i k)) / (Fintype.card κ : ℝ)

/-- `std = T.inv(T.sqrt(std + self.epsilon))`: the raw (unquantized)
reciprocal standard deviation estimate. -/
def std_raw {ι κ : Type} [Fintype κ] (eps : ℝ) (X : ι → κ → ℝ) (i : ι) : ℝ :=
  (Real.sqrt (variance_surrogate X i + eps))⁻¹

/-- `std = T.pow(2., T.round(T.log2(std)))`: the power-of-two quantization
of the raw reciprocal standard deviation. -/
def std_q {ι κ : Type} [Fintype κ] (eps : ℝ) (X : ι → κ → ℝ) (i : ι) : ℝ :=
  (2 : ℝ) ^ (round (Real.logb 2 (std_raw eps X i)))

/-- `BatchNormSfhitPow2Layer.get_output_for`, as a state-passing function:
given the layer constants, the current persistent state and the input,
returns the output tensor together with the post-call persistent state
(the `default_update` expressions applied once).  Note that the
`default_update` of the running `std` is assigned BEFORE the final
power-of-two quantization of `std`, so the running std is updated with
`std_raw`; and that the returned value uses
`mean + 0 * running_mean` and `std_q + 0 * running_std`, mirroring the
`mean += 0 * running_mean; std += 0 * running_std` lines. -/
def get_output_for {ι κ : Type} [Fintype κ] (eps alpha : ℝ) (nonlinearity : ℝ → ℝ)
    (s : BNState ι) (input : ι → κ → ℝ) (deterministic : Bool) :
    (ι → κ → ℝ) × BNState ι :=
  if deterministic then
    (fun i k => nonlinearity ((input i k - s.mean i) * s.std i), s)
  else
    let mean : ι → ℝ := tmean input
    let newMean : ι → ℝ := fun i => (1 - alpha) * s.mean i + alpha * mean i
    let newStd : ι → ℝ := fun i => (1 - alpha) * s.std i + alpha * std_raw eps input i
    let meanUsed : ι → ℝ := fun i => mean i + 0 * s.mean i
    let stdUsed : ι → ℝ := fun i => std_q eps input i + 0 * s.std i
    (fun i k => nonlinearity ((input i k - meanUsed i) * stdUsed i),
     { centered := s.centered, mean := newMean, std := newStd })

/-- The initial persistent state set up in `__init__`:
`centered` and `mean` initialized with `Constant(0)`, `std` with
`Constant(1)`. -/
def initState {ι : Type} : BNState ι :=
  { centered := fun _ => 0, mean := fun _ => 0, std := fun _ => 1 }

/-- The default reduction axes: `(0,) + tuple(range(2, len(input_shape)))`. -/
def defaultAxes (rank : Nat) : List Nat :=
  0 :: (List.range rank).drop 2

/-- The shape of the state tensors: the input shape with every reduced
axis set to size 1 (`shape[axis] = 1` for each axis in `self.axes`);
`none` stands for an unspecified (Python `None`) size. -/
def stateShape (shape : List (Option Nat)) (axes : List Nat) : List (Option Nat) :=
  (List.range shape.length).map fun i => if i ∈ axes then some 1 else shape.getD i none

/-- Whether `__init__` raises `ValueError`:
`any(size is None for size in shape)` after the reduced axes were set to 1. -/
def constructionFails (shape : List (Option Nat)) (axes : List Nat) : Bool :=
  (stateShape shape axes).any fun sz => sz.isNone

/-- A layer the wiring helper `batch_norm_pow_2` can be applied to:
a pre-activation (e.g. `W x`), an optional `nonlinearity` attribute and an
optional bias attribute `b` (`b = some _` also stands for the bias being
registered in the parameter set). -/
structure SrcLayer (α ι κ : Type) where
  preActivation : α → ι → κ → ℝ
  nonlinearity : Option (ℝ → ℝ)
  b : Option (ι → κ → ℝ)

/-- The output a `SrcLayer` computes: nonlinearity (identity when absent)
applied to pre-activation plus bias (0 when absent). -/
def layerOutput {α ι κ : Type} (L : SrcLayer α ι κ) (a : α) : ι → κ → ℝ :=
  fun i k =>
    (L.nonlinearity.getD id) (L.preActivation a i k + (L.b.getD fun _ _ => 0) i k)

/-- `batch_norm_pow_2(layer)`: steals the layer's nonlinearity (setting the
layer's own to identity when one is present), removes the bias from the
layer and its parameter set, and returns the modified layer together with
the nonlinearity handed to the new `BatchNormSfhitPow2Layer` (where `none`
defaults to identity). -/
def batch_norm_pow_2 {α ι κ : Type} (L : SrcLayer α ι κ) :
    SrcLayer α ι κ × Option (ℝ → ℝ) :=
  let nl := L.nonlinearity
  let L1 := if nl.isSome then { L with nonlinearity := some id } else L
  let L2 := { L1 with b := (none : Option (ι → κ → ℝ)) }
  (L2, nl)

/-- The forward computation of the composite returned by
`batch_norm_pow_2`: the normalization layer (with the stolen nonlinearity)
applied to the modified underlying layer's output. -/
def bnp2_forward {α ι κ : Type} [Fintype κ] (eps alpha : ℝ) (s : BNState ι)
    (L : SrcLayer α ι κ) (a : α) (deterministic : Bool) :
    (ι → κ → ℝ) × BNState ι :=
  let p := batch_norm_pow_2 L
  get_output_for eps alpha (fun x => (p.2.getD id) x) s (layerOutput p.1 a) deterministic

/-- Concrete single-element input used for the C2 counterexample. -/
def X0 : Fin 1 → Fin 1 → ℝ := fun _ _ => 0

/-- Concrete input (one kept position, two reduced positions, values 0 and 2)
whose centered values are nonzero, used for the C7 witness. -/
def X7 : Fin 1 → Fin 2 → ℝ := fun _ k => if k = 0 then 0 else 2

/-- Concrete relu layer with a bias, used for the C8 witness. -/
def L8 : SrcLayer Unit (Fin 1) (Fin 1) :=
  { preActivation := fun _ _ _ => 3
    nonlinearity := some fun x => max x 0
    b := some fun _ _ => 1 }

/-- C6: Inference mode is idempotent and side-effect free: a
`deterministic = true` call returns `nonlinearity ((input - running_mean) *
running_std)` built only from the stored running state, leaves the state
unchanged, and a second such call returns the identical output. -/
theorem C6_inference_pure {ι κ : Type} [Fintype κ] (eps alpha : ℝ)
    (nl : ℝ → ℝ) (s : BNState ι) (X : ι → κ → ℝ) :
    get_output_for eps alpha nl s X true =
      (fun i k => nl ((X i k - s.mean i) * s.std i), s) ∧
    (get_output_for eps alpha nl
        (get_output_for eps alpha nl s X true).2 X true).1 =
      (get_output_for eps alpha nl s X true).1 := by
  constructor <;> simp [get_output_for]

/-- C10: At construction the running mean and the unused `centered` state
are all zeros and the running std all ones, so a deterministic-mode call
before any training returns exactly `nonlinearity input`. -/
theorem C10_init_passthrough {ι κ : Type} [Fintype κ] (eps alpha : ℝ)
    (nl : ℝ → ℝ) (X : ι → κ → ℝ) :
    (∀ i : ι, (initState : BNState ι).centered i = 0 ∧
      (initState : BNState ι).mean i = 0 ∧ (initState : BNState ι).std i = 1) ∧
    (get_output_for eps alpha nl initState X true).1 = fun i k => nl (X i k) := by
  refine ⟨fun i => ⟨rfl, rfl, rfl⟩, ?_⟩
  funext i k
  simp [get_output_for, initState]

/-- C1: A training-mode forward call returns
`nonlinearity ((x - m) * s)` with `m` the arithmetic mean over the reduced
axes, `s = 2 ^ round (log2 (1 / sqrt (v + eps)))` and
`v = mean (|x - m| * 2 ^ round (log2 |x - m|))` (the log2 being 0 where
`x - m = 0`); the output multiplies by `s`, no division by a standard
deviation occurs. -/
theorem C1_training_output_formula {ι κ : Type} [Fintype κ] (eps alpha : ℝ)
    (nl : ℝ → ℝ) (s : BNState ι) (X : ι → κ → ℝ) :
    (get_output_for eps alpha nl s X false).1 = fun i k =>
      nl ((X i k - (∑ j, X i j) / (Fintype.card κ : ℝ)) *
        (2 : ℝ) ^ (round (Real.logb 2
          ((Real.sqrt ((∑ j, |X i j - (∑ m, X i m) / (Fintype.card κ : ℝ)| *
              (2 : ℝ) ^ (round (if X i j - (∑ m, X i m) / (Fintype.card κ : ℝ) = 0
                then (0 : ℝ)
                else Real.logb 2 |X i j - (∑ m, X i m) / (Fintype.card κ : ℝ)|))) /
              (Fintype.card κ : ℝ) + eps))⁻¹)))) := by
  funext i k
  simp [get_output_for, std_q, std_raw, variance_surrogate, centered_ap2,
    centered_log2, centered, tmean]

/-- C3: One training-mode call stores
`(1 - alpha) * m0 + alpha * batch_mean` as the running mean (for
`alpha = 1/8`: `0.875 * m0 + 0.125 * mb`), while the returned output is
computed from the current batch's mean and quantized std, independent of
the stored running state. -/
theorem C3_ema_update_and_batch_output {ι κ : Type} [Fintype κ] (eps alpha : ℝ)
    (nl : ℝ → ℝ) (X : ι → κ → ℝ) :
    (∀ s : BNState ι, (get_output_for eps alpha nl s X false).2.mean =
      fun i => (1 - alpha) * s.mean i + alpha * tmean X i) ∧
    (∀ s : BNState ι, (get_output_for eps (1/8) nl s X false).2.mean =
      fun i => 0.875 * s.mean i + 0.125 * tmean X i) ∧
    (∀ s : BNState ι, (get_output_for eps alpha nl s X false).1 =
      fun i k => nl ((X i k - tmean X i) * std_q eps X i)) ∧
    (∀ s t : BNState ι, (get_output_for eps alpha nl s X false).1 =
      (get_output_for eps alpha nl t X false).1) := by
  refine ⟨fun s => ?_, fun s => ?_, fun s => ?_, fun s t => ?_⟩
  · funext i
    simp [get_output_for]
  · funext i
    norm_num [get_output_for]
  · funext i k
    simp [get_output_for]
  · funext i k
    simp [get_output_for]

/-- C9: In either mode, the forward call never writes (nor reads) the
`centered` state entity, a deterministic call leaves the whole state
unchanged, and both the returned output and the updated running mean/std
are independent of the `centered` field. -/
theorem C9_frame_effect {ι κ : Type} [Fintype κ] (eps alpha : ℝ)
    (nl : ℝ → ℝ) (s : BNState ι) (X : ι → κ → ℝ) (det : Bool) :
    (get_output_for eps alpha nl s X det).2.centered = s.centered ∧
    (get_output_for eps alpha nl s X true).2 = s ∧
    (∀ c : ι → ℝ,
      get_output_for eps alpha nl ⟨c, s.mean, s.std⟩ X det =
        ((get_output_for eps alpha nl s X det).1,
         ⟨c, (get_output_for eps alpha nl s X det).2.mean,
             (get_output_for eps alpha nl s X det).2.std⟩)) := by
  refine ⟨?_, by simp [get_output_for], fun c => ?_⟩ <;> cases det <;>
    simp [get_output_for]

/-- C4: Construction raises the configuration error exactly when some axis
outside the reduction axes has unspecified size; in particular shape
`(None, 10)` with the default axes succeeds and shape `(None, None)` with
axes `(0,)` fails. -/
theorem C4_construction_error_iff :
    (∀ (shape : List (Option Nat)) (axes : List Nat),
      constructionFails shape axes = true ↔
        ∃ i, i < shape.length ∧ i ∉ axes ∧ shape.getD i none = none) ∧
    constructionFails [none, some 10] (defaultAxes 2) = false ∧
    constructionFails [none, none] [0] = true := by
  refine ⟨fun shape axes => ?_, by decide, by decide⟩
  unfold constructionFails stateShape
  rw [List.any_eq_true]
  constructor
  · rintro ⟨sz, hmem, hnone⟩
    rw [List.mem_map] at hmem
    obtain ⟨i, hi, rfl⟩ := hmem
    rw [List.mem_range] at hi
    by_cases h : i ∈ axes
    · simp [h] at hnone
    · refine ⟨i, hi, h, ?_⟩
      simpa [h, Option.isNone_iff_eq_none] using hnone
  · rintro ⟨i, hi, hnot, heq⟩
    refine ⟨(if i ∈ axes then some 1 else shape.getD i none), ?_, ?_⟩
    · rw [List.mem_map]
      exact ⟨i, List.mem_range.mpr hi, rfl⟩
    · rw [if_neg hnot, heq]
      rfl

/-- Concrete constant input (two reduced positions, both 1), whose centered
values are all exactly 0, used for the C5 witness. -/
def X5 : Fin 1 → Fin 2 → ℝ := fun _ _ => 1

/-- C5: Where the centered value is exactly 0, the element-wise log2 term
is defined to be exactly 0 and that position's contribution
`|centered| * centered_ap2` to the variance surrogate is exactly 0. -/
theorem C5_zero_centered_contribution {ι κ : Type} [Fintype κ]
    (X : ι → κ → ℝ) (i : ι) (k : κ) (h : centered X i k = 0) :
    centered_log2 (centered X i k) = 0 ∧
    |centered X i k| * centered_ap2 (centered X i k) = 0 := by
  rw [h]
  refine ⟨if_pos rfl, ?_⟩
  simp

/-- Witness for C5 at the concrete constant input `X5`. -/
theorem C5_zero_centered_contribution_witness :
    centered X5 0 0 = 0 ∧ centered_log2 (centered X5 0 0) = 0 ∧
      |centered X5 0 0| * centered_ap2 (centered X5 0 0) = 0 :=
  have h : centered X5 0 0 = 0 := by
    norm_num [centered, tmean, X5, Fin.sum_univ_two]
  ⟨h, C5_zero_centered_contribution X5 0 0 h⟩

/-- C7: Where the centered value is nonzero, the power-of-two
reconstruction `2 ^ round (log2 |centered|)` is within a factor of
`2 ^ (1/2)` of `|centered|` in either direction. -/
theorem C7_pow2_reconstruction_ratio {ι κ : Type} [Fintype κ]
    (X : ι → κ → ℝ) (i : ι) (k : κ) (h : centered X i k ≠ 0) :
    (2 : ℝ) ^ (-(1/2) : ℝ) ≤
      centered_ap2 (centered X i k) / |centered X i k| ∧
    centered_ap2 (centered X i k) / |centered X i k| ≤ (2 : ℝ) ^ ((1/2) : ℝ) := by
  set c := centered X i k with hc
  have habs : 0 < |c| := abs_pos.mpr h
  have hl : centered_log2 c = Real.logb 2 |c| := if_neg h
  set l := Real.logb 2 |c| with hldef
  have hap : centered_ap2 c = (2 : ℝ) ^ ((round l : ℤ) : ℝ) := by
    rw [centered_ap2, hl, Real.rpow_intCast]
  have habs2 : |c| = (2 : ℝ) ^ l := by
    rw [hldef, Real.rpow_logb (by norm_num) (by norm_num) habs]
  have hratio : centered_ap2 c / |c| = (2 : ℝ) ^ (((round l : ℤ) : ℝ) - l) := by
    rw [hap, habs2, ← Real.rpow_sub (by norm_num)]
  have hb := abs_sub_round l
  rw [abs_le] at hb
  constructor
  · rw [hratio]
    rw [Real.rpow_le_rpow_left_iff (by norm_num : (1:ℝ) < 2)]
    linarith [hb.1, hb.2]
  · rw [hratio]
    rw [Real.rpow_le_rpow_left_iff (by norm_num : (1:ℝ) < 2)]
    linarith [hb.1, hb.2]

/-- Witness for C7 at the concrete input `X7` (centered value -1). -/
theorem C7_pow2_reconstruction_ratio_witness :
    centered X7 0 0 ≠ 0 ∧
    ((2 : ℝ) ^ (-(1/2) : ℝ) ≤
        centered_ap2 (centered X7 0 0) / |centered X7 0 0| ∧
      centered_ap2 (centered X7 0 0) / |centered X7 0 0| ≤
        (2 : ℝ) ^ ((1/2) : ℝ)) :=
  have h : centered X7 0 0 ≠ 0 := by
    norm_num [centered, tmean, X7, Fin.sum_univ_two]
  ⟨h, C7_pow2_reconstruction_ratio X7 0 0 h⟩

/-- C8: For a layer with nonlinearity `f` and a bias, the wiring helper
sets the layer's nonlinearity to identity, removes the bias from the
layer (and hence from its parameter set), and the returned composite's
output is `f` applied to the normalization of the layer's pre-activation. -/
theorem C8_wiring_helper {α ι κ : Type} [Fintype κ] (L : SrcLayer α ι κ)
    (f : ℝ → ℝ) (hnl : L.nonlinearity = some f) :
    (batch_norm_pow_2 L).1.b = none ∧
    (batch_norm_pow_2 L).1.nonlinearity = some id ∧
    ∀ (eps alpha : ℝ) (s : BNState ι) (a : α) (det : Bool),
      (bnp2_forward eps alpha s L a det).1 =
        (get_output_for eps alpha f s (fun i k => L.preActivation a i k) det).1 := by
  have h1 : batch_norm_pow_2 L =
      ({ L with nonlinearity := some id, b := none }, some f) := by
    simp [batch_norm_pow_2, hnl]
  refine ⟨by rw [h1], by rw [h1], fun eps alpha s a det => ?_⟩
  have h2 : layerOutput
      ({ L with nonlinearity := some id, b := none } : SrcLayer α ι κ) a =
      fun i k => L.preActivation a i k := by
    funext i k
    simp [layerOutput]
  simp only [bnp2_forward, h1, h2, Option.getD_some]

/-- Witness for C8 at the concrete relu layer `L8`. -/
theorem C8_wiring_helper_witness :
    (batch_norm_pow_2 L8).1.b = none ∧
    (batch_norm_pow_2 L8).1.nonlinearity = some id ∧
    (bnp2_forward 1 (1/2) initState L8 () true).1 =
      (get_output_for 1 (1/2) (fun x => max x 0) initState
        (fun i k => L8.preActivation () i k) true).1 :=
  have h := C8_wiring_helper L8 (fun x => max x 0) rfl
  ⟨h.1, h.2.1, h.2.2 1 (1/2) initState () true⟩

/-- C2 (amended): In a training-mode forward call the running std is
updated as `(1 - alpha) * running_std_old + alpha * std_raw` with the RAW
reciprocal standard deviation `std_raw = 1 / sqrt (variance_surrogate +
eps)`: the `default_update` expression is captured before the final
power-of-two quantization, which only affects the std used for the
returned output. -/
theorem C2_running_std_uses_raw_std {ι κ : Type} [Fintype κ] (eps alpha : ℝ)
    (nl : ℝ → ℝ) (s : BNState ι) (X : ι → κ → ℝ) :
    (get_output_for eps alpha nl s X false).2.std = fun i =>
      (1 - alpha) * s.std i +
        alpha * (Real.sqrt (variance_surrogate X i + eps))⁻¹ := by
  funext i
  simp [get_output_for, std_raw]

/-- Counterexample to C2 as stated: with `eps = 1/2`, `alpha = 1/2`, the
initial state and the all-zero single-element input `X0`, the stored
running std after one training-mode call differs from
`(1 - alpha) * running_std_old + alpha * std_q` (the EMA built from the
quantized power-of-two std): the call stores `1/2 + sqrt 2 / 2` while the
quantized EMA would be `3/2`. -/
theorem C2_counterexample :
    (get_output_for (1/2) (1/2) id (initState : BNState (Fin 1)) X0 false).2.std 0 ≠
      (1 - 1/2) * (initState : BNState (Fin 1)).std 0 +
        (1/2) * std_q (1/2) X0 0 := by
  have hvar : variance_surrogate X0 0 = 0 := by
    simp [variance_surrogate, centered, tmean, X0]
  have hraw : std_raw (1/2) X0 0 = Real.sqrt 2 := by
    rw [std_raw, hvar, zero_add, show ((1:ℝ)/2) = (2:ℝ)⁻¹ by norm_num,
      Real.sqrt_inv, inv_inv]
  have hlogb : Real.logb 2 (Real.sqrt 2) = 1/2 := by
    have hlog : Real.log 2 ≠ 0 := ne_of_gt (Real.log_pos (by norm_num))
    rw [Real.logb, Real.log_sqrt (by norm_num)]
    field_simp
    ring
  have hround : round ((1:ℝ)/2) = 1 := by
    rw [round_eq]
    norm_num
  have hq : std_q (1/2) X0 0 = 2 := by
    rw [std_q, hraw, hlogb, hround]
    norm_num
  have hlhs : (get_output_for (1/2) (1/2) id (initState : BNState (Fin 1))
      X0 false).2.std 0 = 1/2 + Real.sqrt 2 / 2 := by
    rw [show (get_output_for (1/2) (1/2) id (initState : BNState (Fin 1))
        X0 false).2.std 0 = (1 - 1/2) * (initState : BNState (Fin 1)).std 0 +
        (1/2) * std_raw (1/2) X0 0 by simp [get_output_for, initState], hraw]
    norm_num [initState]
    ring
  have hs2 : Real.sqrt 2 < 2 := by
    nlinarith [Real.sq_sqrt (show (0:ℝ) ≤ 2 by norm_num),
      Real.sqrt_nonneg 2]
  rw [hlhs, hq]
  intro hcontra
  rw [show (1 - 1/2 : ℝ) * (initState : BNState (Fin 1)).std 0 + (1/2) * 2 =
    3/2 by norm_num [initState]] at hcontra
  nlinarith [hs2, Real.sqrt_nonneg 2]
